import Mathlib

/-!
Wait counters (`c10/util/WaitCounter.h`).

A shallow embedding of the wait-counter header of `c10::monitor`:

* the scoped guard `WaitCounterHandle::WaitGuard` (constructor, `stop`, destructor), embedded
  from the class body in the header;
* the two convenience macros `STATIC_WAIT_COUNTER` and `STATIC_SCOPED_WAIT_COUNTER`, embedded
  from their replacement text;
* the registry, the per-key cache and `WaitCounterHandle::start` / `stop`, whose bodies live in
  `WaitCounter.cpp` and are modelled from the specification.

Pointers are modelled as natural numbers (the address of the object), `nullptr` as `none`,
`intptr_t` tokens as integers (their values are never computed with), time points as naturals.
Calls that leave the embedded code are recorded in an explicit trace.
-/

namespace c10.monitor

/-- A key naming a wait counter (`std::string_view key`). -/
abbrev Key := String

/-- A backend token (`intptr_t ctx`). -/
abbrev Token := Int

/-- A monotonic time point (`std::chrono::steady_clock::time_point`). -/
abbrev TimePoint := Nat

/-- The address of a `WaitCounterHandle` object (`WaitCounterHandle*`). -/
abbrev HandlePtr := Nat

/-! ## The scoped guard -/

/-- The class `WaitCounterHandle::WaitGuard`: the two data members `handle_` and `ctxs_`.
A null `handle_` is `none`. -/
structure WaitGuard where
  handle_ : Option HandlePtr
  ctxs_ : List Token
  deriving DecidableEq, Repr

/-- One call `handle->stop(std::move(ctxs_))` leaving the guard: the receiver, the argument the
callee is handed, and the value the guard's own `handle_` member has while the call runs. -/
structure StopCall where
  receiver : HandlePtr
  ctxs : List Token
  guardHandleDuringCall : Option HandlePtr
  deriving DecidableEq, Repr

namespace WaitGuard

/-- The private constructor `WaitGuard(WaitCounterHandle& handle, SmallVector<intptr_t>&& ctxs)`:
`handle_{&handle}, ctxs_{std::move(ctxs)}`. The address of a reference is never null. -/
def new (handle : HandlePtr) (ctxs : List Token) : WaitGuard :=
  { handle_ := some handle, ctxs_ := ctxs }

/-- The expression `std::exchange(handle_, nullptr)`: returns the old value of `handle_` and
leaves `nullptr` in the member. -/
def exchangeHandle (g : WaitGuard) : Option HandlePtr × WaitGuard :=
  (g.handle_, { g with handle_ := none })

/-- The member function `stop()`:
```
if (auto handle = std::exchange(handle_, nullptr)) {
  handle->stop(std::move(ctxs_));
}
```
The exchange is evaluated first; the call, when the old pointer is non-null, is appended to the
trace together with the state of `handle_` at that moment. `std::move` only casts, so what
remains in `ctxs_` afterwards is decided by the callee: `residue` is that remainder. -/
def stop (residue : List Token → List Token) (g : WaitGuard) (trace : List StopCall) :
    WaitGuard × List StopCall :=
  match exchangeHandle g with
  | (some handle, g1) =>
      ({ g1 with ctxs_ := residue g1.ctxs_ },
        trace ++ [{ receiver := handle, ctxs := g1.ctxs_, guardHandleDuringCall := g1.handle_ }])
  | (none, g1) => (g1, trace)

/-- The destructor `~WaitGuard() { stop(); }`; the guard is gone afterwards, the trace stays. -/
def destroy (residue : List Token → List Token) (g : WaitGuard) (trace : List StopCall) :
    List StopCall :=
  (stop residue g trace).2

/-- The member function `stop()` called `k` times in a row on the same guard. -/
def stopTimes (residue : List Token → List Token) :
    Nat → WaitGuard → List StopCall → WaitGuard × List StopCall
  | 0, g, trace => (g, trace)
  | k + 1, g, trace =>
      let r := stop residue g trace
      stopTimes residue k r.1 r.2

/-- Initialising a new guard from an existing one, `WaitGuard g2(std::move(g))` or
`WaitGuard g2(g)`. The class declares a destructor and no copy or move member, so the only
constructor taking a guard is the implicitly declared copy constructor, which copies `handle_`
and `ctxs_` member by member and does not write to its source. The result is the pair
(source afterwards, new guard). -/
def transfer (g : WaitGuard) : WaitGuard × WaitGuard :=
  (g, { handle_ := g.handle_, ctxs_ := g.ctxs_ })

/-- The guard is stopped: its handle reference is null. -/
def stopped (g : WaitGuard) : Bool :=
  g.handle_.isNone

end WaitGuard

/-- The number of calls in a trace whose receiver is the handle `h`. -/
def stopCallsOn (h : HandlePtr) (trace : List StopCall) : Nat :=
  (trace.filter (fun c => c.receiver == h)).length

/-! ## The static helpers -/

/-- One textual expansion of `STATIC_WAIT_COUNTER`. The replacement text is a lambda-expression
holding a function-local `static` handle, so every expansion owns a static object of its own.
`use` numbers the place in the program where a helper is written, `occurrence` the expansion
inside the replacement text of that place. A reference to the static is the site itself. -/
structure StaticSite where
  use : Nat
  occurrence : Nat
  deriving DecidableEq, Repr

/-- The two member functions of `WaitCounterHandle` that the helpers name. -/
inductive Member where
  | start
  | stop
  deriving DecidableEq, Repr

/-- The number of parameters in the declaration of a member function:
`void start(std::chrono::steady_clock::time_point now = std::chrono::steady_clock::now())` and
`void stop(SmallVector<intptr_t>&& ctxs)` have one each. Each of the two is declared once. -/
def Member.params : Member → Nat
  | .start => 1
  | .stop => 1

/-- The number of parameters of a member function, counted from the right, that its declaration
gives a default argument: `now` of `start` has one, `ctxs` of `stop` has none. -/
def Member.defaulted : Member → Nat
  | .start => 1
  | .stop => 0

/-- A member call as it is written in a replacement text, `STATIC_WAIT_COUNTER(key).member(...)`:
the expansion of `STATIC_WAIT_COUNTER` that is the receiver, the key written in it, the member
named, and the number of arguments written between the parentheses. -/
structure MemberCall where
  site : StaticSite
  key : Key
  member : Member
  args : Nat
  deriving DecidableEq, Repr

/-- The call matches the declaration of the member it names: it is written with no more
arguments than the member has parameters, and every parameter left without an argument has a
default argument. A call that does not match is ill-formed and the program containing it is
not translated. -/
def MemberCall.wellFormed (c : MemberCall) : Bool :=
  decide (c.member.params - c.member.defaulted ≤ c.args) && decide (c.args ≤ c.member.params)

/-- The replacement text of the scoped helper: the member call of its first statement, made
where the helper is written, and the member call in the body of the callable handed to
`c10::make_scope_exit`, made when the scope is left. -/
structure ScopedExpansion where
  atUse : MemberCall
  atExit : MemberCall
  deriving DecidableEq, Repr

/-- The helper `STATIC_SCOPED_WAIT_COUNTER(_name)`, written at place `use`:
```
STATIC_WAIT_COUNTER(_name).start();
auto C10_ANONYMOUS_VARIABLE(SCOPE_GUARD) =
    c10::make_scope_exit([&]() { STATIC_WAIT_COUNTER(_name).stop(); });
```
The replacement text contains `STATIC_WAIT_COUNTER(_name)` twice: occurrence `0` is the receiver
of `start()`, written with no argument, and occurrence `1`, inside the callable of the scope
object, is the receiver of `stop()`, written with no argument. -/
def STATIC_SCOPED_WAIT_COUNTER (use : Nat) (name : Key) : ScopedExpansion :=
  { atUse := { site := { use := use, occurrence := 0 }, key := name, member := Member.start,
               args := 0 }
    atExit := { site := { use := use, occurrence := 1 }, key := name, member := Member.stop,
                args := 0 } }

/-- Both member calls of the replacement text match the declarations of the members. -/
def ScopedExpansion.wellFormed (e : ScopedExpansion) : Bool :=
  e.atUse.wellFormed && e.atExit.wellFormed

/-! ## Backends, the registry and the handle -/

/-- The interface `detail::WaitCounterBackendIf`: an object with private state (an integer
here) and the two virtual member functions `start(now)`, which returns a token, and
`stop(now, ctx)`. Both may change the state of the object. -/
structure WaitCounterBackendIf where
  state : Int
  start : Int → TimePoint → Int × Token
  stop : Int → TimePoint → Token → Int

/-- The interface `detail::WaitCounterBackendFactoryIf`: `create(key)` returns a new backend or
`nullptr` ("May return nullptr. In this case the counter will be ignored by the given
backend."). -/
structure WaitCounterBackendFactoryIf where
  create : Key → Option WaitCounterBackendIf

/-- A backend object created by a factory together with its identity (its address). -/
structure BackendInstance where
  id : Nat
  obj : WaitCounterBackendIf

/-- Modelled from the spec: the class `detail::WaitCounterImpl`, only forward-declared in the
header. It is the per-key entry, which "caches, for one key, the ordered list of
BackendInstances (one per factory that did not decline)". -/
structure WaitCounterImpl where
  backends : List BackendInstance

/-- A call that reaches a factory or a backend instance. -/
inductive BackendEvent where
  | create (factory : Nat) (key : Key) (made : Option Nat)
  | start (instance_ : Nat) (now : TimePoint) (token : Token)
  | stop (instance_ : Nat) (now : TimePoint) (token : Token)
  deriving DecidableEq, Repr

/-- Modelled from the spec: the process-wide state behind the header, defined in
`WaitCounter.cpp` and absent from the header: the "process-wide ordered list of backend
factories", the map from keys to per-key entries (an entry never moves, so a reference to it is
its position), the next free object identity, and the calls made on factories and backends. -/
structure Registry where
  factories : List WaitCounterBackendFactoryIf
  counters : List (Key × WaitCounterImpl)
  nextId : Nat
  log : List BackendEvent

/-- The class `WaitCounterHandle`: its only data member is the reference
`detail::WaitCounterImpl& impl_`. -/
structure WaitCounterHandle where
  impl_ : Nat
  deriving DecidableEq, Repr

/-- Modelled from the spec: `detail::registerWaitCounterBackend`, declared in the header and
defined in `WaitCounter.cpp`: it "appends to the process-wide ordered registry". -/
def registerWaitCounterBackend (f : WaitCounterBackendFactoryIf) (r : Registry) : Registry :=
  { r with factories := r.factories ++ [f] }

/-- The position of the first occurrence of a key in a list of keys. -/
def findKey (key : Key) : List Key → Option Nat
  | [] => none
  | k :: ks => if k = key then some 0 else (findKey key ks).map (fun i => i + 1)

/-- Modelled from the spec: the lookup of a key in the map from keys to per-key entries
(body in `WaitCounter.cpp`). -/
def Registry.lookup (key : Key) (r : Registry) : Option Nat :=
  findKey key (r.counters.map (fun e => e.1))

/-- Modelled from the spec: the loop over the factory list on first reference to a key
(body in `WaitCounter.cpp`): "call create(key) on each in registration order,
retain only the non-declined results as the entry's ordered backend-instance list". `index` is
the position of the first factory of the list in the registry and `next` the next free object
identity; the result is the instances, the calls made, and the next free identity. -/
def createBackends (key : Key) :
    List WaitCounterBackendFactoryIf → (index next : Nat) →
      List BackendInstance × List BackendEvent × Nat
  | [], _, next => ([], [], next)
  | f :: fs, index, next =>
      match f.create key with
      | none =>
          let r := createBackends key fs (index + 1) next
          (r.1, BackendEvent.create index key none :: r.2.1, r.2.2)
      | some b =>
          let r := createBackends key fs (index + 1) (next + 1)
          ({ id := next, obj := b } :: r.1,
            BackendEvent.create index key (some next) :: r.2.1, r.2.2)

/-- Modelled from the spec: the per-key resolver, whose body is in `WaitCounter.cpp`.
"On first reference to a key: ... snapshot the current factory list, call create(key) on each
in registration order, retain only the non-declined results ..., and publish the entry under
the key for all future lookups. ... Subsequent lookups are cache hits requiring no factory
re-invocation." The result is the reference to the entry and the registry afterwards. -/
def WaitCounterImpl.getInstance (key : Key) (r : Registry) : Nat × Registry :=
  match r.lookup key with
  | some i => (i, r)
  | none =>
      let c := createBackends key r.factories 0 r.nextId
      (r.counters.length,
        { r with
          counters := r.counters ++ [(key, { backends := c.1 })]
          nextId := c.2.2
          log := r.log ++ c.2.1 })

/-- Modelled from the spec: the constructor `WaitCounterHandle(std::string_view key)`, declared
in the header and defined in `WaitCounter.cpp`: it "resolves (creating if absent) the key's
Per-Key Entry" and binds `impl_` to it. -/
def WaitCounterHandle.new (key : Key) (r : Registry) : WaitCounterHandle × Registry :=
  let p := WaitCounterImpl.getInstance key r
  ({ impl_ := p.1 }, p.2)

/-- Modelled from the spec: the loop of `WaitCounterHandle::start` (body in
`WaitCounter.cpp`): "for every backend instance in the entry's list, in order, invoke
start(now) and collect the returned token into an ordered list matching that order". The result
is the instances afterwards, the tokens, and the calls made. -/
def startBackends (now : TimePoint) :
    List BackendInstance → List BackendInstance × List Token × List BackendEvent
  | [] => ([], [], [])
  | b :: bs =>
      let s := b.obj.start b.obj.state now
      let r := startBackends now bs
      ({ b with obj := { b.obj with state := s.1 } } :: r.1, s.2 :: r.2.1,
        BackendEvent.start b.id now s.2 :: r.2.2)

/-- Modelled from the spec: the loop of `WaitCounterHandle::stop` (body in
`WaitCounter.cpp`): "for every (backend instance, token) pair, in the same order, invoke
stop(now, token)". Instances or tokens left without a partner (a caller-side contract breach)
take part in no call. The result is the instances afterwards and the calls made. -/
def stopBackends (now : TimePoint) :
    List BackendInstance → List Token → List BackendInstance × List BackendEvent
  | b :: bs, t :: ts =>
      let r := stopBackends now bs ts
      ({ b with obj := { b.obj with state := b.obj.stop b.obj.state now t } } :: r.1,
        BackendEvent.stop b.id now t :: r.2)
  | bs, _ => (bs, [])

/-- Modelled from the spec: the tokens the backend instances return to the loop of
`WaitCounterHandle::start` (body in `WaitCounter.cpp`), in the order of the entry's list. The
member function is declared `void`, so this list does not reach its caller. -/
def WaitCounterHandle.startTokens (h : WaitCounterHandle) (now : TimePoint) (r : Registry) :
    List Token :=
  match r.counters[h.impl_]? with
  | none => []
  | some e => (startBackends now e.2.backends).2.1

/-- Modelled from the spec: `WaitCounterHandle::start(now)`, declared in the header as
`void start(std::chrono::steady_clock::time_point now = ...)` and defined in `WaitCounter.cpp`:
the loop `startBackends` over the list of the entry the handle refers to. It returns nothing;
its effect is on the backend instances and on the record of the calls made. -/
def WaitCounterHandle.start (h : WaitCounterHandle) (now : TimePoint) (r : Registry) :
    Registry :=
  match r.counters[h.impl_]? with
  | none => r
  | some e =>
      let s := startBackends now e.2.backends
      { r with
        counters := r.counters.set h.impl_ (e.1, { backends := s.1 })
        log := r.log ++ s.2.2 }

/-- Modelled from the spec: `WaitCounterHandle::stop(ctxs)`, declared in the header and defined
in `WaitCounter.cpp`: the loop `stopBackends` over the list of the entry the handle refers to,
at the time `now` read from the clock. -/
def WaitCounterHandle.stop (h : WaitCounterHandle) (ctxs : List Token) (now : TimePoint)
    (r : Registry) : Registry :=
  match r.counters[h.impl_]? with
  | none => r
  | some e =>
      let s := stopBackends now e.2.backends ctxs
      { r with
        counters := r.counters.set h.impl_ (e.1, { backends := s.1 })
        log := r.log ++ s.2 }

/-- The identities of the backend instances of the entry a handle refers to. -/
def Registry.instanceIds (r : Registry) (h : WaitCounterHandle) : Option (List Nat) :=
  (r.counters[h.impl_]?).map (fun e => e.2.backends.map (fun b => b.id))

/-- The backend objects of the entry a handle refers to. -/
def Registry.instanceObjs (r : Registry) (h : WaitCounterHandle) : List WaitCounterBackendIf :=
  match r.counters[h.impl_]? with
  | none => []
  | some e => e.2.backends.map (fun b => b.obj)

/-- An operation on the process-wide state: registering a factory, constructing a handle for a
key, and `start` / `stop` on a handle. -/
inductive RegistryOp where
  | register (f : WaitCounterBackendFactoryIf)
  | resolve (key : Key)
  | start (h : WaitCounterHandle) (now : TimePoint)
  | stop (h : WaitCounterHandle) (ctxs : List Token) (now : TimePoint)

/-- The effect of one operation on the registry. -/
def RegistryOp.run : RegistryOp → Registry → Registry
  | .register f, r => registerWaitCounterBackend f r
  | .resolve key, r => (WaitCounterHandle.new key r).2
  | .start h now, r => h.start now r
  | .stop h ctxs now, r => h.stop ctxs now r

/-- The effect of a sequence of operations, first to last. -/
def runOps : List RegistryOp → Registry → Registry
  | [], r => r
  | op :: ops, r => runOps ops (op.run r)

/-- The keys of the per-key entries with the identities of their backend instances, in the
order of the map. -/
def Registry.shape (r : Registry) : List (Key × List Nat) :=
  r.counters.map (fun e => (e.1, e.2.backends.map (fun b => b.id)))

/-- The backends the factories of a list make for a key, in the order of the list, leaving out
the factories that decline. -/
def madeBy (key : Key) (fs : List WaitCounterBackendFactoryIf) : List WaitCounterBackendIf :=
  fs.filterMap (fun f => f.create key)

/-- The token a backend object returns when started at `now` in its present state. -/
def WaitCounterBackendIf.tokenAt (b : WaitCounterBackendIf) (now : TimePoint) : Token :=
  (b.start b.state now).2

/-- The registry in which a key has been resolved for the first time, operations `before` have
run, the factory `f` has then been registered, and operations `after` have run. -/
def lateRegistration (r : Registry) (key : Key) (f : WaitCounterBackendFactoryIf)
    (before after : List RegistryOp) : Registry :=
  runOps after (registerWaitCounterBackend f (runOps before (WaitCounterHandle.new key r).2))

/-- A backend that counts its starts and stops in its state and hands out the token
`base + state`. -/
def countingBackend (base : Int) : WaitCounterBackendIf :=
  { state := 0
    start := fun st _ => (st + 1, base + st)
    stop := fun st _ _ => st - 1 }

/-- A factory that makes a counting backend for every key. -/
def countingFactory (base : Int) : WaitCounterBackendFactoryIf :=
  { create := fun _ => some (countingBackend base) }

/-- A factory that declines the key `"k"` and makes a counting backend for every other key. -/
def pickyFactory (base : Int) : WaitCounterBackendFactoryIf :=
  { create := fun key => if key = "k" then none else some (countingBackend base) }

/-- A registry with three factories, the second of which declines the key `"k"`, and no key
resolved yet. -/
def sampleRegistry : Registry :=
  { factories := [countingFactory 10, pickyFactory 20, countingFactory 30]
    counters := []
    nextId := 0
    log := [] }

/-- What a recorded call says about the callee: the receiver and the argument. -/
def StopCall.target (c : StopCall) : HandlePtr × List Token :=
  (c.receiver, c.ctxs)

/-! ## Properties of the scoped guard -/

namespace WaitGuard

theorem stop_new (residue : List Token → List Token) (h : HandlePtr) (ts : List Token)
    (trace : List StopCall) :
    stop residue (new h ts) trace =
      ({ handle_ := none, ctxs_ := residue ts },
        trace ++ [{ receiver := h, ctxs := ts, guardHandleDuringCall := none }]) := by
  simp [stop, new, exchangeHandle]

theorem stop_of_null (residue : List Token → List Token) (ts : List Token)
    (trace : List StopCall) :
    stop residue { handle_ := none, ctxs_ := ts } trace =
      ({ handle_ := none, ctxs_ := ts }, trace) := by
  simp [stop, exchangeHandle]

theorem stopTimes_of_null (residue : List Token → List Token) (k : Nat) (ts : List Token)
    (trace : List StopCall) :
    stopTimes residue k { handle_ := none, ctxs_ := ts } trace =
      ({ handle_ := none, ctxs_ := ts }, trace) := by
  induction k with
  | zero => rfl
  | succ k ih => simp [stopTimes, stop_of_null, ih]

theorem destroy_stopTimes_new (residue : List Token → List Token) (k : Nat) (h : HandlePtr)
    (ts : List Token) (trace : List StopCall) :
    destroy residue (stopTimes residue k (new h ts) trace).1
        (stopTimes residue k (new h ts) trace).2 =
      trace ++ [{ receiver := h, ctxs := ts, guardHandleDuringCall := none }] := by
  cases k with
  | zero => simp [stopTimes, destroy, stop_new]
  | succ k => simp [stopTimes, destroy, stop_new, stopTimes_of_null, stop_of_null]

end WaitGuard

theorem stopCallsOn_append_single (h : HandlePtr) (trace : List StopCall) (ts : List Token)
    (o : Option HandlePtr) :
    stopCallsOn h (trace ++ [{ receiver := h, ctxs := ts, guardHandleDuringCall := o }]) =
      stopCallsOn h trace + 1 := by
  simp [stopCallsOn, List.filter_append]

/-- C1: a guard bound to handle `h` with tokens `ts` that is stopped explicitly and then
destroyed calls `h.stop` exactly once in total: the explicit `stop()` adds one call to the
trace, and the `stop()` run by the destructor adds none. -/
theorem C1_explicit_stop_then_cleanup_calls_once (residue : List Token → List Token)
    (h : HandlePtr) (ts : List Token) (trace : List StopCall) :
    stopCallsOn h (WaitGuard.stop residue (WaitGuard.new h ts) trace).2 =
        stopCallsOn h trace + 1 ∧
      (WaitGuard.stop residue (WaitGuard.new h ts) trace).2.length = trace.length + 1 ∧
      WaitGuard.destroy residue (WaitGuard.stop residue (WaitGuard.new h ts) trace).1
          (WaitGuard.stop residue (WaitGuard.new h ts) trace).2 =
        (WaitGuard.stop residue (WaitGuard.new h ts) trace).2 := by
  rw [WaitGuard.stop_new]
  refine ⟨stopCallsOn_append_single h trace ts none, by simp, ?_⟩
  simp [WaitGuard.destroy, WaitGuard.stop_of_null]

/-- C2: for every number `k` of explicit `stop()` calls (also `k = 0`, the guard that is never
stopped explicitly) followed by destruction, a guard bound to handle `h` has called `h.stop`
exactly once: the trace has grown by one call, and that call is on `h`. -/
theorem C2_cleanup_after_any_stops_calls_once (residue : List Token → List Token) (k : Nat)
    (h : HandlePtr) (ts : List Token) (trace : List StopCall) :
    stopCallsOn h
        (WaitGuard.destroy residue (WaitGuard.stopTimes residue k (WaitGuard.new h ts) trace).1
          (WaitGuard.stopTimes residue k (WaitGuard.new h ts) trace).2) =
        stopCallsOn h trace + 1 ∧
      (WaitGuard.destroy residue (WaitGuard.stopTimes residue k (WaitGuard.new h ts) trace).1
          (WaitGuard.stopTimes residue k (WaitGuard.new h ts) trace).2).length =
        trace.length + 1 := by
  rw [WaitGuard.destroy_stopTimes_new]
  exact ⟨stopCallsOn_append_single h trace ts none, by simp⟩

/-- C3: the one call made over the life of a guard constructed from `(h, ts)` (any number of
explicit stops, then destruction) has receiver `h` and argument exactly `ts`. -/
theorem C3_single_call_goes_to_handle_with_tokens (residue : List Token → List Token) (k : Nat)
    (h : HandlePtr) (ts : List Token) (trace : List StopCall) :
    (WaitGuard.destroy residue (WaitGuard.stopTimes residue k (WaitGuard.new h ts) trace).1
        (WaitGuard.stopTimes residue k (WaitGuard.new h ts) trace).2).map StopCall.target =
      trace.map StopCall.target ++ [(h, ts)] := by
  rw [WaitGuard.destroy_stopTimes_new]
  simp [StopCall.target]

/-- C4, evaluated on the code: the live guard for handle `1` with tokens `[7]` is transferred
to a new guard. The source still holds its handle reference afterwards, the new guard holds the
same reference and tokens, and destroying the new guard and then the source calls `stop` on
handle `1` twice, both times with `[7]`, where the claim has exactly one call. -/
theorem C4_transfer_then_destroy_stops_twice :
    (WaitGuard.transfer (WaitGuard.new 1 [7])).1.handle_ = some 1 ∧
      (WaitGuard.transfer (WaitGuard.new 1 [7])).2 = WaitGuard.new 1 [7] ∧
      stopCallsOn 1
        (WaitGuard.destroy id (WaitGuard.transfer (WaitGuard.new 1 [7])).1
          (WaitGuard.destroy id (WaitGuard.transfer (WaitGuard.new 1 [7])).2 [])) = 2 ∧
      (WaitGuard.destroy id (WaitGuard.transfer (WaitGuard.new 1 [7])).1
          (WaitGuard.destroy id (WaitGuard.transfer (WaitGuard.new 1 [7])).2 [])).map
        StopCall.target = [(1, [7]), (1, [7])] := by
  decide

/-- C10, as the code has it: `stop()` on a live guard first clears the handle reference and
only then calls `handle.stop(tokens)` on the handle it held: the exchange leaves a null
reference, the call is made on `h` with `ts` while the guard is already in its stopped state,
and the guard is stopped afterwards. -/
theorem C10_stop_clears_reference_before_call (residue : List Token → List Token)
    (h : HandlePtr) (ts : List Token) (trace : List StopCall) :
    (WaitGuard.exchangeHandle (WaitGuard.new h ts)).1 = some h ∧
      (WaitGuard.exchangeHandle (WaitGuard.new h ts)).2.stopped = true ∧
      (WaitGuard.stop residue (WaitGuard.new h ts) trace).2 =
        trace ++ [{ receiver := h, ctxs := ts, guardHandleDuringCall := none }] ∧
      (WaitGuard.stop residue (WaitGuard.new h ts) trace).1.stopped = true := by
  rw [WaitGuard.stop_new]
  exact ⟨rfl, rfl, rfl, rfl⟩

/-- C10 fails as stated: when the live guard for handle `1` with tokens `[7]` is stopped, the
guard's handle reference is already null while `handle.stop` runs; it does not still hold `1`. -/
theorem C10_stop_order_counterexample :
    (WaitGuard.stop id (WaitGuard.new 1 [7]) []).2.map
        (fun c => c.guardHandleDuringCall) = [none] ∧
      (WaitGuard.stop id (WaitGuard.new 1 [7]) []).2.map
        (fun c => c.guardHandleDuringCall) ≠ [some 1] := by
  decide

/-! ## Properties of the static helpers -/

/-- C8, evaluated on the code: in the replacement text of the scoped helper, for every place of
use and every key, the call made when the scope is left names `stop` and is written with no
argument, while the only declaration of `stop` has one parameter and no default argument. The
call is ill-formed, and so is the replacement text as a whole: no `stop` call with an empty
token set is issued. The `start()` call of the first statement is well-formed. -/
theorem C8_scoped_stop_call_ill_formed (use : Nat) (name : Key) :
    (STATIC_SCOPED_WAIT_COUNTER use name).atExit.member = Member.stop ∧
      (STATIC_SCOPED_WAIT_COUNTER use name).atExit.args = 0 ∧
      Member.stop.params - Member.stop.defaulted = 1 ∧
      (STATIC_SCOPED_WAIT_COUNTER use name).atExit.wellFormed = false ∧
      (STATIC_SCOPED_WAIT_COUNTER use name).atUse.wellFormed = true ∧
      (STATIC_SCOPED_WAIT_COUNTER use name).wellFormed = false := by
  refine ⟨rfl, rfl, rfl, ?_, ?_, ?_⟩ <;>
    simp [STATIC_SCOPED_WAIT_COUNTER, ScopedExpansion.wellFormed, MemberCall.wellFormed,
      Member.params, Member.defaulted]

theorem createBackends_objs (key : Key) (fs : List WaitCounterBackendFactoryIf)
    (index next : Nat) :
    (createBackends key fs index next).1.map (fun b => b.obj) = madeBy key fs := by
  induction fs generalizing index next with
  | nil => rfl
  | cons f fs ih =>
      unfold createBackends madeBy
      cases hf : f.create key with
      | none => simpa [hf, madeBy] using ih (index + 1) next
      | some b => simpa [hf, madeBy] using ih (index + 1) (next + 1)

theorem startBackends_tokens (now : TimePoint) (bs : List BackendInstance) :
    (startBackends now bs).2.1 = bs.map (fun b => b.obj.tokenAt now) := by
  induction bs with
  | nil => rfl
  | cons b bs ih => simp [startBackends, ih, WaitCounterBackendIf.tokenAt]

theorem startBackends_ids (now : TimePoint) (bs : List BackendInstance) :
    (startBackends now bs).1.map (fun b => b.id) = bs.map (fun b => b.id) := by
  induction bs with
  | nil => rfl
  | cons b bs ih => simp [startBackends, ih]

theorem startBackends_events (now : TimePoint) (bs : List BackendInstance) :
    (startBackends now bs).2.2 =
      List.zipWith (fun i t => BackendEvent.start i now t) (bs.map (fun b => b.id))
        (startBackends now bs).2.1 := by
  induction bs with
  | nil => rfl
  | cons b bs ih => simp [startBackends, ← ih]

theorem stopBackends_ids (now : TimePoint) (bs : List BackendInstance) (ts : List Token) :
    (stopBackends now bs ts).1.map (fun b => b.id) = bs.map (fun b => b.id) := by
  induction bs generalizing ts with
  | nil => cases ts <;> rfl
  | cons b bs ih =>
      cases ts with
      | nil => rfl
      | cons t ts => simp [stopBackends, ih]

theorem stopBackends_events (now : TimePoint) (bs : List BackendInstance) (ts : List Token) :
    (stopBackends now bs ts).2 =
      List.zipWith (fun i t => BackendEvent.stop i now t) (bs.map (fun b => b.id)) ts := by
  induction bs generalizing ts with
  | nil => cases ts <;> rfl
  | cons b bs ih =>
      cases ts with
      | nil => rfl
      | cons t ts => simp [stopBackends, ih]

theorem findKey_getElem (key : Key) (ks : List Key) (i : Nat) (h : findKey key ks = some i) :
    ks[i]? = some key := by
  induction ks generalizing i with
  | nil => simp [findKey] at h
  | cons k ks ih =>
      unfold findKey at h
      split at h
      · next hk =>
          cases h
          simp [hk]
      · cases hr : findKey key ks with
        | none => simp [hr] at h
        | some j =>
            simp [hr] at h
            subst h
            simpa using ih j hr

theorem findKey_append (key : Key) (ks extra : List Key) (i : Nat)
    (h : findKey key ks = some i) : findKey key (ks ++ extra) = some i := by
  induction ks generalizing i with
  | nil => simp [findKey] at h
  | cons k ks ih =>
      unfold findKey at h
      simp only [List.cons_append, findKey]
      split
      · next hk => simpa [hk] using h
      · next hk =>
          cases hr : findKey key ks with
          | none => simp [hk, hr] at h
          | some j =>
              simp [hk, hr] at h
              simp [ih j hr, h]

theorem findKey_append_self (key : Key) (ks : List Key) (h : findKey key ks = none) :
    findKey key (ks ++ [key]) = some ks.length := by
  induction ks with
  | nil => simp [findKey]
  | cons k ks ih =>
      unfold findKey at h
      simp only [List.cons_append, findKey]
      split
      · next hk => simp [hk] at h
      · next hk =>
          cases hr : findKey key ks with
          | none => simp [ih hr]
          | some j => simp [hk, hr] at h

theorem map_set_of_eq {α β : Type} (f : α → β) (l : List α) (i : Nat) (a b : α)
    (hi : l[i]? = some a) (hf : f b = f a) : (l.set i b).map f = l.map f := by
  induction l generalizing i with
  | nil => rfl
  | cons x xs ih =>
      cases i with
      | zero =>
          simp at hi
          subst hi
          simp [hf]
      | succ j =>
          simp at hi
          simp only [List.set_cons_succ, List.map_cons]
          rw [ih j (by simpa using hi)]

theorem Registry.lookup_eq_shape (key : Key) (r : Registry) :
    r.lookup key = findKey key (r.shape.map (fun e => e.1)) := by
  simp [Registry.lookup, Registry.shape, Function.comp_def]

theorem Registry.instanceIds_eq_shape (r : Registry) (h : WaitCounterHandle) :
    r.instanceIds h = (r.shape[h.impl_]?).map (fun e => e.2) := by
  simp [Registry.instanceIds, Registry.shape, Function.comp_def]

theorem getInstance_hit (key : Key) (r : Registry) (i : Nat) (h : r.lookup key = some i) :
    WaitCounterImpl.getInstance key r = (i, r) := by
  simp [WaitCounterImpl.getInstance, h]

theorem getInstance_miss (key : Key) (r : Registry) (h : r.lookup key = none) :
    WaitCounterImpl.getInstance key r =
      (r.counters.length,
        { r with
          counters := r.counters ++
            [(key, { backends := (createBackends key r.factories 0 r.nextId).1 })]
          nextId := (createBackends key r.factories 0 r.nextId).2.2
          log := r.log ++ (createBackends key r.factories 0 r.nextId).2.1 }) := by
  simp [WaitCounterImpl.getInstance, h]

theorem lookup_getInstance (key : Key) (r : Registry) :
    (WaitCounterImpl.getInstance key r).2.lookup key =
      some (WaitCounterImpl.getInstance key r).1 := by
  cases h : r.lookup key with
  | some i => rw [getInstance_hit key r i h]; exact h
  | none =>
      rw [getInstance_miss key r h]
      have h2 := findKey_append_self key (r.counters.map (fun e => e.1)) (by simpa [Registry.lookup] using h)
      simpa [Registry.lookup] using h2

theorem shape_getInstance (key : Key) (r : Registry) :
    r.shape <+: (WaitCounterImpl.getInstance key r).2.shape := by
  cases h : r.lookup key with
  | some i => rw [getInstance_hit key r i h]
  | none =>
      rw [getInstance_miss key r h]
      simp [Registry.shape]

theorem shape_start (h : WaitCounterHandle) (now : TimePoint) (r : Registry) :
    (h.start now r).shape = r.shape := by
  unfold WaitCounterHandle.start
  cases he : r.counters[h.impl_]? with
  | none => rfl
  | some e =>
      simp only [Registry.shape]
      exact map_set_of_eq _ _ _ e _ he (by simp [startBackends_ids])

theorem shape_stop (h : WaitCounterHandle) (ctxs : List Token) (now : TimePoint)
    (r : Registry) : (h.stop ctxs now r).shape = r.shape := by
  unfold WaitCounterHandle.stop
  cases he : r.counters[h.impl_]? with
  | none => rfl
  | some e =>
      simp only [Registry.shape]
      exact map_set_of_eq _ _ _ e _ he (by simp [stopBackends_ids])

theorem shape_run (op : RegistryOp) (r : Registry) : r.shape <+: (op.run r).shape := by
  cases op with
  | register f => exact List.prefix_refl _
  | resolve key => exact shape_getInstance key r
  | start h now => simp [RegistryOp.run, shape_start]
  | stop h ctxs now => simp [RegistryOp.run, shape_stop]

theorem shape_runOps (ops : List RegistryOp) (r : Registry) :
    r.shape <+: (runOps ops r).shape := by
  induction ops generalizing r with
  | nil => exact List.prefix_refl _
  | cons op ops ih => exact (shape_run op r).trans (ih (op.run r))

theorem lookup_mono (key : Key) (r r2 : Registry) (i : Nat)
    (hp : r.shape <+: r2.shape) (h : r.lookup key = some i) : r2.lookup key = some i := by
  obtain ⟨extra, he⟩ := hp
  rw [Registry.lookup_eq_shape] at h ⊢
  rw [← he, List.map_append]
  exact findKey_append key _ _ i h

theorem instanceIds_mono (r r2 : Registry) (h : WaitCounterHandle) (ids : List Nat)
    (hp : r.shape <+: r2.shape) (hi : r.instanceIds h = some ids) :
    r2.instanceIds h = some ids := by
  obtain ⟨extra, he⟩ := hp
  rw [Registry.instanceIds_eq_shape] at hi ⊢
  rw [← he]
  cases hg : r.shape[h.impl_]? with
  | none => rw [hg] at hi; simp at hi
  | some e =>
      have hlt : h.impl_ < r.shape.length := (List.getElem?_eq_some_iff.mp hg).1
      rw [List.getElem?_append_left hlt, hg]
      rw [hg] at hi
      exact hi

theorem instanceIds_of_lookup (key : Key) (r : Registry) (i : Nat)
    (h : r.lookup key = some i) : ∃ ids, r.instanceIds { impl_ := i } = some ids := by
  have hk := findKey_getElem key _ i h
  simp only [Registry.instanceIds]
  cases hg : r.counters[i]? with
  | none => simp [hg] at hk
  | some e => exact ⟨_, rfl⟩

theorem factories_run (op : RegistryOp) (r : Registry) :
    r.factories <+: (op.run r).factories := by
  cases op with
  | register f => exact List.prefix_append _ _
  | resolve key =>
      simp only [RegistryOp.run, WaitCounterHandle.new, WaitCounterImpl.getInstance]
      split <;> exact List.prefix_refl _
  | start h now =>
      simp only [RegistryOp.run, WaitCounterHandle.start]
      split <;> exact List.prefix_refl _
  | stop h ctxs now =>
      simp only [RegistryOp.run, WaitCounterHandle.stop]
      split <;> exact List.prefix_refl _

theorem factories_runOps (ops : List RegistryOp) (r : Registry) :
    r.factories <+: (runOps ops r).factories := by
  induction ops generalizing r with
  | nil => exact List.prefix_refl _
  | cons op ops ih => exact (factories_run op r).trans (ih (op.run r))

theorem startTokens_length (h : WaitCounterHandle) (now : TimePoint) (r : Registry)
    (ids : List Nat) (hi : r.instanceIds h = some ids) :
    (h.startTokens now r).length = ids.length := by
  unfold Registry.instanceIds at hi
  unfold WaitCounterHandle.startTokens
  cases he : r.counters[h.impl_]? with
  | none => simp [he] at hi
  | some e =>
      simp [he] at hi
      simp [startBackends_tokens, ← hi]

theorem start_log (h : WaitCounterHandle) (now : TimePoint) (r : Registry)
    (ids : List Nat) (hi : r.instanceIds h = some ids) :
    (h.start now r).log =
      r.log ++ List.zipWith (fun i t => BackendEvent.start i now t) ids
        (h.startTokens now r) := by
  unfold Registry.instanceIds at hi
  unfold WaitCounterHandle.start WaitCounterHandle.startTokens
  cases he : r.counters[h.impl_]? with
  | none => simp [he] at hi
  | some e =>
      simp [he] at hi
      simp only [← hi]
      rw [startBackends_events]

theorem stop_log (h : WaitCounterHandle) (ctxs : List Token) (now : TimePoint) (r : Registry)
    (ids : List Nat) (hi : r.instanceIds h = some ids) :
    (h.stop ctxs now r).log =
      r.log ++ List.zipWith (fun i t => BackendEvent.stop i now t) ids ctxs := by
  unfold Registry.instanceIds at hi
  unfold WaitCounterHandle.stop
  cases he : r.counters[h.impl_]? with
  | none => simp [he] at hi
  | some e =>
      simp [he] at hi
      simp only [← hi]
      rw [stopBackends_events]

theorem new_fresh_objs (key : Key) (r : Registry) (h : r.lookup key = none) :
    (WaitCounterHandle.new key r).2.instanceObjs (WaitCounterHandle.new key r).1 =
      madeBy key r.factories := by
  simp only [WaitCounterHandle.new, getInstance_miss key r h, Registry.instanceObjs]
  simp [createBackends_objs]

theorem madeBy_append_cons (key : Key) (pre post : List WaitCounterBackendFactoryIf)
    (f : WaitCounterBackendFactoryIf) (b : WaitCounterBackendIf) (hb : f.create key = some b) :
    madeBy key (pre ++ f :: post) = madeBy key pre ++ b :: madeBy key post := by
  simp [madeBy, List.filterMap_append, List.filterMap_cons, hb]

theorem new_hit (key : Key) (r : Registry) (i : Nat) (h : r.lookup key = some i) :
    WaitCounterHandle.new key r = ({ impl_ := i }, r) := by
  simp [WaitCounterHandle.new, getInstance_hit key r i h]

theorem lookup_new (key : Key) (r : Registry) :
    (WaitCounterHandle.new key r).2.lookup key = some (WaitCounterHandle.new key r).1.impl_ :=
  lookup_getInstance key r

theorem shape_lateRegistration (r : Registry) (key : Key) (f : WaitCounterBackendFactoryIf)
    (before after : List RegistryOp) :
    (WaitCounterHandle.new key r).2.shape <+: (lateRegistration r key f before after).shape :=
  (shape_runOps before _).trans (shape_runOps after (registerWaitCounterBackend f _))

theorem factories_lateRegistration (r : Registry) (key : Key)
    (f : WaitCounterBackendFactoryIf) (before after : List RegistryOp) :
    ∃ pre post, (lateRegistration r key f before after).factories = pre ++ f :: post := by
  obtain ⟨post, hp⟩ := factories_runOps after
    (registerWaitCounterBackend f (runOps before (WaitCounterHandle.new key r).2))
  refine ⟨(runOps before (WaitCounterHandle.new key r).2).factories, post, ?_⟩
  rw [lateRegistration, ← hp]
  simp [registerWaitCounterBackend]

/-- C6: constructing a handle for `key` a second time, after any sequence `ops` of
registrations, resolutions, starts and stops, yields a handle with the same `impl_` reference as
the first; the second construction leaves the whole registry as it was (in particular its log:
no `create` is invoked), and the entry referred to holds the same instance identities as after
the first construction. -/
theorem C6_second_resolution_same_entry (r : Registry) (key : Key) (ops : List RegistryOp) :
    (WaitCounterHandle.new key (runOps ops (WaitCounterHandle.new key r).2)).1 =
        (WaitCounterHandle.new key r).1 ∧
      (WaitCounterHandle.new key (runOps ops (WaitCounterHandle.new key r).2)).2 =
        runOps ops (WaitCounterHandle.new key r).2 ∧
      (WaitCounterHandle.new key (runOps ops (WaitCounterHandle.new key r).2)).2.log =
        (runOps ops (WaitCounterHandle.new key r).2).log ∧
      ∃ ids : List Nat,
        (WaitCounterHandle.new key r).2.instanceIds (WaitCounterHandle.new key r).1 =
            some ids ∧
          (WaitCounterHandle.new key (runOps ops (WaitCounterHandle.new key r).2)).2.instanceIds
              (WaitCounterHandle.new key (runOps ops (WaitCounterHandle.new key r).2)).1 =
            some ids := by
  have hl := lookup_new key r
  have hp := shape_runOps ops (WaitCounterHandle.new key r).2
  have hl2 := lookup_mono key _ _ _ hp hl
  have hn := new_hit key _ _ hl2
  obtain ⟨ids, hids⟩ := instanceIds_of_lookup key _ _ hl
  rw [hn]
  refine ⟨rfl, rfl, rfl, ids, hids, ?_⟩
  exact instanceIds_mono _ _ _ ids hp hids

/-- C7: a factory `f` registered after the first resolution of `key` (with any operations
before and after the registration) adds no instance for `key`: the entry keeps the instance
identities fixed at first resolution, a later handle for `key` refers to that entry, and a later
`start` or `stop` on it reaches exactly those instances. A key `key2` that is first resolved
after the registration and that `f` does not decline gets the backend `b` made by `f`, at the
place of `f` in the factory list. -/
theorem C7_late_factory_not_applied (r : Registry) (key : Key)
    (f : WaitCounterBackendFactoryIf) (before after : List RegistryOp) (now : TimePoint)
    (ctxs : List Token) :
    ∃ ids : List Nat,
      (WaitCounterHandle.new key r).2.instanceIds (WaitCounterHandle.new key r).1 = some ids ∧
        (lateRegistration r key f before after).instanceIds (WaitCounterHandle.new key r).1 =
          some ids ∧
        (WaitCounterHandle.new key (lateRegistration r key f before after)).1 =
          (WaitCounterHandle.new key r).1 ∧
        ((WaitCounterHandle.new key r).1.startTokens now
            (lateRegistration r key f before after)).length = ids.length ∧
        ((WaitCounterHandle.new key r).1.start now
            (lateRegistration r key f before after)).log =
          (lateRegistration r key f before after).log ++
            List.zipWith (fun i t => BackendEvent.start i now t) ids
              ((WaitCounterHandle.new key r).1.startTokens now
                (lateRegistration r key f before after)) ∧
        ((WaitCounterHandle.new key r).1.stop ctxs now
            (lateRegistration r key f before after)).log =
          (lateRegistration r key f before after).log ++
            List.zipWith (fun i t => BackendEvent.stop i now t) ids ctxs ∧
        ∀ (key2 : Key) (b : WaitCounterBackendIf),
          (lateRegistration r key f before after).lookup key2 = none →
          f.create key2 = some b →
          ∃ pre post : List WaitCounterBackendFactoryIf,
            (lateRegistration r key f before after).factories = pre ++ f :: post ∧
              (WaitCounterHandle.new key2 (lateRegistration r key f before after)).2.instanceObjs
                  (WaitCounterHandle.new key2 (lateRegistration r key f before after)).1 =
                madeBy key2 pre ++ b :: madeBy key2 post := by
  have hl := lookup_new key r
  have hp := shape_lateRegistration r key f before after
  obtain ⟨ids, hids⟩ := instanceIds_of_lookup key _ _ hl
  have hids2 := instanceIds_mono _ _ _ ids hp hids
  refine ⟨ids, hids, hids2, ?_, startTokens_length _ now _ ids hids2,
    start_log _ now _ ids hids2, stop_log _ ctxs now _ ids hids2, ?_⟩
  · rw [new_hit key _ _ (lookup_mono key _ _ _ hp hl)]
  · intro key2 b hfresh hb
    obtain ⟨pre, post, hf⟩ := factories_lateRegistration r key f before after
    refine ⟨pre, post, hf, ?_⟩
    rw [new_fresh_objs key2 _ hfresh, hf]
    exact madeBy_append_cons key2 pre post f b hb

/-- C7 at the sample registry: `"k"` is resolved, then a fourth factory is registered. The
entry of `"k"` keeps its two instances `0` and `1`, while the key `"j"`, resolved afterwards,
gets a backend made by the new factory. -/
theorem C7_late_factory_not_applied_witness :
    (lateRegistration sampleRegistry "k" (countingFactory 40) [] []).instanceIds
        (WaitCounterHandle.new "k" sampleRegistry).1 = some [0, 1] ∧
      (lateRegistration sampleRegistry "k" (countingFactory 40) [] []).lookup "j" = none ∧
      (countingFactory 40).create "j" = some (countingBackend 40) ∧
      countingBackend 40 ∈
        (WaitCounterHandle.new "j"
            (lateRegistration sampleRegistry "k" (countingFactory 40) [] [])).2.instanceObjs
          (WaitCounterHandle.new "j"
            (lateRegistration sampleRegistry "k" (countingFactory 40) [] [])).1 := by
  obtain ⟨ids, h1, h2, -, -, -, -, h7⟩ :=
    C7_late_factory_not_applied sampleRegistry "k" (countingFactory 40) [] [] 5 [10, 30]
  have hid : (WaitCounterHandle.new "k" sampleRegistry).2.instanceIds
      (WaitCounterHandle.new "k" sampleRegistry).1 = some [0, 1] := by decide
  rw [hid] at h1
  cases h1
  have hfresh : (lateRegistration sampleRegistry "k" (countingFactory 40) [] []).lookup "j" =
      none := by decide
  obtain ⟨pre, post, hf, hobjs⟩ := h7 "j" (countingBackend 40) hfresh rfl
  refine ⟨h2, hfresh, rfl, ?_⟩
  rw [hobjs]
  simp

end c10.monitor
